import Mathlib

/-!
Shallow embedding of `feature_engine.creation.math_features.MathFeatures`
(source file `src/feature_engine/creation/math_features.py`).

Layer 1 models the Python values reaching `MathFeatures.__init__` and the
construction-time validation (source lines 183-241).

Layer 2 models the row-wise NaN-aware reductions that `np_transform`
delegates to numpy (`np.nansum`, `np.nanmean`, `np.nanmin`, `np.nanmax`,
`np.nanprod`, `np.nanmedian`, `np.nanstd`, `np.nanvar`).  A cell is
`Option ℚ`, with `none` playing the role of NaN / missing.

Layer 3 models `np_transform`, `MathFeatures.transform` and
`MathFeatures._get_new_features_name` over tables given as ordered lists
of named columns (the pandas frames involved).

Layer 4 adds an explicit object store for pandas frames so that the
in-place versus fresh-allocation behaviour of `transform` (the
`inplace=True` drop on the concatenated frame) is expressible.
-/

/-- Atomic Python values that can appear in `MathFeatures.__init__` arguments:
strings, integers, callables (identified by their declared name), a dict, or
`None`. -/
inductive PyAtom where
  | astr (s : String)
  | aint (n : Int)
  | acallable (nm : String)
  | adict
  | anone
  deriving DecidableEq

/-- A Python value handed to the constructor: an atom or a flat list of atoms
(the shapes the constructor's validation distinguishes). -/
inductive PyVal where
  | atom (a : PyAtom)
  | plist (xs : List PyAtom)
  deriving DecidableEq

/-- The state stored on the instance at the end of `__init__`:
`self.variables`, `self.func` (after the casting block), and
`self.new_variables_names`. -/
structure MFState where
  variables_ : PyVal
  func : PyVal
  new_variables_names : PyVal
  deriving DecidableEq

/-- Source lines 192-200: the casting of the `func` parameter.  A plain
string is appended to the fresh list `function_input`; a list is kept as-is;
anything else (in particular a single callable) is assigned to
`function_input` unchanged, so it is NOT wrapped into a list. -/
def castFunc : PyVal → PyVal
  | .atom (.astr s) => .plist [.astr s]
  | .plist xs => .plist xs
  | f => f

/-- `isinstance(var, (int, str))` on an atom. -/
def isStrOrInt : PyAtom → Bool
  | .astr _ => true
  | .aint _ => true
  | _ => false

/-- `isinstance(var, str)` on an atom. -/
def isStrAtom : PyAtom → Bool
  | .astr _ => true
  | _ => false

/-- Source lines 202-207: `variables` must be a list, all entries strings or
integers, length at least 2, and `len(set(variables)) == len(variables)`. -/
def validVariables : PyVal → Bool
  | .plist xs => xs.all isStrOrInt && decide (2 ≤ xs.length) && (xs.dedup.length == xs.length)
  | .atom _ => false

/-- Source lines 219-223: `new_variables_names` must be a list, all entries
strings, with `len(set(names)) == len(names)`. -/
def uniqueStrNames : PyVal → Bool
  | .plist xs => xs.all isStrAtom && (xs.dedup.length == xs.length)
  | .atom _ => false

/-- `isinstance(v, list)`. -/
def isPlist : PyVal → Bool
  | .plist _ => true
  | .atom _ => false

/-- `len(v)` for a list value (unused on atoms). -/
def pLen : PyVal → Nat
  | .plist xs => xs.length
  | .atom _ => 0

/-- Static part of the error message raised for invalid `variables`
(source lines 208-211). -/
def varsErrorText : String :=
  "variables must be a list of strings or integers with at least 2 different variables"

/-- Error message raised when `func` is a dict (source lines 213-216). -/
def dictErrorText : String :=
  "func does not work with dictionaries in this transformer"

/-- Static part of the error message raised for malformed
`new_variables_names` (source lines 224-227). -/
def namesErrorText : String :=
  "new_variable_names should be None or a list of unique strings"

/-- Error message raised when the name count does not match the function
count (source lines 232-235). -/
def countErrorText : String :=
  "The number of new feature names must coincide with the number of functions"

/-- Source lines 183-241: `MathFeatures.__init__`.  The `func` parameter is
cast first; then `variables` is validated; then the dict check on the cast
`func`; then the two `new_variables_names` checks, the count check being
guarded by `isinstance(func, list)`.  On success the instance stores the
given `variables`, the cast `func` and the given `new_variables_names`. -/
def mathFeaturesInit (variables_ func nv : PyVal) : Except String MFState :=
  let f := castFunc func
  if validVariables variables_ = false then
    .error varsErrorText
  else if f = PyVal.atom .adict then
    .error dictErrorText
  else if nv ≠ PyVal.atom .anone ∧ uniqueStrNames nv = false then
    .error namesErrorText
  else if nv ≠ PyVal.atom .anone ∧ isPlist f = true ∧ pLen nv ≠ pLen f then
    .error countErrorText
  else
    .ok ⟨variables_, f, nv⟩

/-- Whether an `Except` result is a success. -/
def isOkE {ε α : Type} : Except ε α → Bool
  | .ok _ => true
  | .error _ => false

/-- A table cell: `none` plays the role of NaN / missing, `some q` a numeric
value (rationals stand for the finite floats of the source). -/
abbrev Cell := Option ℚ

/-- The non-missing values of a row, in row order. -/
def presentValues (row : List Cell) : List ℚ := row.filterMap id

/-- Number of non-missing entries of a row (numpy: count of non-NaN). -/
def nanCount (row : List Cell) : Nat := row.countP (fun x => x.isSome)

/-- Models `np.nansum` on one row: NaN entries are treated as 0 and the row
is summed; an all-NaN row therefore sums to 0, never to NaN. -/
def nansum (row : List Cell) : Cell :=
  some ((row.map (fun x => x.getD 0)).sum)

/-- Models `np.nanprod` on one row: NaN entries are treated as 1; an all-NaN
row therefore has product 1, never NaN. -/
def nanprod (row : List Cell) : Cell :=
  some ((row.map (fun x => x.getD 1)).prod)

/-- Models `np.nanmean` on one row: the NaN-as-0 sum divided by the count of
non-NaN entries; when that count is 0 numpy computes 0/0 and the result is
NaN (here `none`). -/
def nanmean (row : List Cell) : Cell :=
  if nanCount row = 0 then none
  else some ((row.map (fun x => x.getD 0)).sum / (nanCount row : ℚ))

/-- Models `np.nanmin` on one row: the minimum over the non-NaN entries; an
all-NaN row yields NaN (numpy masks NaN with +inf and flags all-NaN rows). -/
def nanmin (row : List Cell) : Cell :=
  match presentValues row with
  | [] => none
  | x :: xs => some (xs.foldl min x)

/-- Models `np.nanmax` on one row, dually to `nanmin`. -/
def nanmax (row : List Cell) : Cell :=
  match presentValues row with
  | [] => none
  | x :: xs => some (xs.foldl max x)

/-- Median of a list of rationals in numpy's convention: sort ascending; odd
length takes the middle element, even positive length averages the two middle
elements, the empty list has no median (NaN). -/
def listMedian (l : List ℚ) : Option ℚ :=
  let s := List.insertionSort (· ≤ ·) l
  let n := s.length
  if n = 0 then none
  else if n % 2 = 1 then some (s.getD (n / 2) 0)
  else some ((s.getD (n / 2 - 1) 0 + s.getD (n / 2) 0) / 2)

/-- Models `np.nanmedian` on one row: the median of the non-NaN entries, NaN
when there are none. -/
def nanmedian (row : List Cell) : Cell := listMedian (presentValues row)

/-- Models `np.nanvar` on one row with the given `ddof`: numpy computes the
mean over non-NaN entries, subtracts it (NaN entries stay NaN), sums the
squared deviations with `nansum`, divides by `cnt - ddof`, and overwrites the
result with NaN wherever the degrees of freedom `cnt - ddof` are not
positive (emitting the "Degrees of freedom <= 0" warning). -/
def nanvar (ddof : Nat) (row : List Cell) : Cell :=
  let cnt := nanCount row
  if cnt ≤ ddof then none
  else
    let avg : ℚ := (row.map (fun x => x.getD 0)).sum / (cnt : ℚ)
    let sq : ℚ := (row.map (fun x => (x.map (fun v => (v - avg) ^ 2)).getD 0)).sum
    some (sq / ((cnt - ddof : ℕ) : ℚ))

/-- Models `np.nanstd` on one row: numpy implements it literally as the
square root of `np.nanvar` with the same `ddof` (so NaN propagates through
the square root).  The square root is the one operation that leaves the
rationals, hence the real-valued result. -/
noncomputable def nanstd (row : List Cell) : Option ℝ :=
  (nanvar 1 row).map (fun q => Real.sqrt (q : ℝ))

/-- The textbook sample variance of a list of values with divisor
`length - 1`: mean, squared deviations from the mean, divided by one less
than the number of values.  Stated over plain lists, independently of the
NaN-handling of `nanvar`, to serve as the specification-side formula. -/
def sampleVarFormula (l : List ℚ) : ℚ :=
  (l.map (fun x => (x - l.sum / (l.length : ℚ)) ^ 2)).sum / ((l.length : ℚ) - 1)

/-- The eight built-in reduction identities recognised by `np_transform`
(source lines 261-326), each matched as `"X"` or `"np.X"`. -/
inductive BFunc where
  | bsum
  | bmean
  | bmin
  | bmax
  | bprod
  | bmedian
  | bstd
  | bvar
  deriving DecidableEq

/-- The plain string form of a built-in identity. -/
def bName : BFunc → String
  | .bsum => "sum"
  | .bmean => "mean"
  | .bmin => "min"
  | .bmax => "max"
  | .bprod => "prod"
  | .bmedian => "median"
  | .bstd => "std"
  | .bvar => "var"

/-- Execution scope of a user callable, read from
`np_function.__self__.scope_target` with `"pandas"` as the default when the
attribute path does not resolve (source lines 329-332). -/
inductive Scope where
  | pandasScope
  | numpyScope
  deriving DecidableEq

/-- One entry of the normalized reduction-specification list: a built-in
name (`aliased = true` for the `"np."`-prefixed spelling), or a callable
carrying its declared name, its scope, and its row-wise behaviour (both the
pandas `agg(axis=1)` route and the `np.apply_over_axes` route produce one
scalar per row of the selected sub-table). -/
inductive Spec where
  | builtin (b : BFunc) (aliased : Bool)
  | callable (nm : String) (scope : Scope) (f : List Cell → Cell)

instance : Inhabited Spec := ⟨.builtin .bsum false⟩

/-- The fitted transformer state used by `transform`: the input column list
(`self.variables`, equal to the fitted `self.variables_`), the normalized
specification list, the optional explicit output names, and the drop flag. -/
structure FittedMF where
  variables_ : List String
  func : List Spec
  new_variables_names : Option (List String)
  drop_original : Bool

/-- The function identity used in derived names: the literal string for a
built-in (aliased or not), the callable's `__name__` for a callable
(source line 374). -/
def specIdentity : Spec → String
  | .builtin b ali => if ali then "np." ++ bName b else bName b
  | .callable nm _ _ => nm

/-- Source lines 362-380, `MathFeatures._get_new_features_name`: explicit
names are returned verbatim; otherwise each specification derives
`f"{function}_{'_'.join(varlist)}"` over the fitted variable list. -/
def getNewFeaturesName (inst : FittedMF) : List String :=
  match inst.new_variables_names with
  | some ns => ns
  | none =>
    inst.func.map (fun f => specIdentity f ++ "_" ++ String.intercalate "_" inst.variables_)

/-- A pandas frame: an ordered list of named columns (duplicate labels are
possible, as in pandas after a concatenation). -/
abbrev Table := List (String × List Cell)

/-- The values of the first column labelled `v` (pandas column selection on
a frame with unique labels). -/
def colValues : Table → String → List Cell
  | [], _ => []
  | p :: rest, v => if p.1 = v then p.2 else colValues rest v

/-- Row count of a frame (the length of its index; all columns share it). -/
def nRows (X : Table) : Nat :=
  (X.head?.map (fun p => p.2.length)).getD 0

/-- Row `i` of the sub-frame `X[vars]`: the `vars`-values of row `i` in the
order of `vars`. -/
def selectRow (X : Table) (vars : List String) (i : Nat) : List Cell :=
  vars.map (fun v => (colValues X v).getD i none)

/-- All rows of the sub-frame `X[vars]`, in row order. -/
def selectRows (X : Table) (vars : List String) : List (List Cell) :=
  (List.range (nRows X)).map (selectRow X vars)

/-- The per-row reduction a built-in dispatches to (source lines 261-326).
`sqrtFn` abstracts the floating square root that `np.nanstd` applies on top
of `np.nanvar`; its exact value semantics are treated by `nanstd`. -/
def applyBuiltin (sqrtFn : ℚ → ℚ) : BFunc → List Cell → Cell
  | .bsum => nansum
  | .bmean => nanmean
  | .bmin => nanmin
  | .bmax => nanmax
  | .bprod => nanprod
  | .bmedian => nanmedian
  | .bstd => fun row => (nanvar 1 row).map sqrtFn
  | .bvar => nanvar 1

/-- The per-row behaviour of one specification: built-ins dispatch to the
NaN-aware numpy reductions; a callable is invoked on each row of the
selected sub-frame (scope only selects the invocation facility). -/
def applySpec (sqrtFn : ℚ → ℚ) : Spec → List Cell → Cell
  | .builtin b _ => applyBuiltin sqrtFn b
  | .callable _ _ f => f

/-- The output column one specification produces: one scalar per input row,
aligned by row position. -/
def computeColumn (sqrtFn : ℚ → ℚ) (X : Table) (vars : List String) (sp : Spec) : List Cell :=
  (selectRows X vars).map (applySpec sqrtFn sp)

/-- Pandas column assignment `df[nm] = col`: overwrites the column in place
when the label exists, otherwise appends it on the right. -/
def dfAssign (df : Table) (nm : String) (col : List Cell) : Table :=
  if df.any (fun p => p.1 == nm) then df.map (fun p => if p.1 == nm then (nm, col) else p)
  else df ++ [(nm, col)]

/-- The loop body of `np_transform` (source lines 258-346): iterate over the
specifications in order, computing each column and storing it in
`np_result_df` under the matching output name. -/
def npTransformAux (sqrtFn : ℚ → ℚ) (X : Table) (vars : List String) :
    Table → List (String × Spec) → Table
  | acc, [] => acc
  | acc, (nm, sp) :: rest =>
    npTransformAux sqrtFn X vars (dfAssign acc nm (computeColumn sqrtFn X vars sp)) rest

/-- `np_transform(np_df, new_variable_names, np_variables, np_functions)`:
builds the frame of new columns, empty at the start. -/
def npTransform (sqrtFn : ℚ → ℚ) (X : Table) (names : List String) (vars : List String)
    (funcs : List Spec) : Table :=
  npTransformAux sqrtFn X vars [] (names.zip funcs)

/-- Source lines 348-360, `MathFeatures.transform`: obtain the output names,
concatenate the new columns to the right of the input frame
(`pd.concat(..., axis=1)`), and, when `drop_original` is set, drop every
column labelled by an input variable from the concatenated frame. -/
def mfTransform (sqrtFn : ℚ → ℚ) (inst : FittedMF) (X : Table) : Table :=
  let names := getNewFeaturesName inst
  let X1 := X ++ npTransform sqrtFn X names inst.variables_ inst.func
  if inst.drop_original then X1.filter (fun p => !(inst.variables_.contains p.1)) else X1

/-- An explicit store of pandas frame objects, indexed by allocation order:
the heap picture needed to talk about in-place mutation versus fresh
allocation in `transform`. -/
structure Store where
  frames : List Table

/-- The frame an object reference points to. -/
def getFrame (s : Store) (r : Nat) : Table := s.frames.getD r []

/-- Allocation of a fresh frame object, returning its reference. -/
def allocFrame (s : Store) (t : Table) : Store × Nat :=
  (⟨s.frames ++ [t]⟩, s.frames.length)

/-- In-place overwrite of the frame an existing reference points to. -/
def setFrame (s : Store) (r : Nat) (t : Table) : Store := ⟨s.frames.set r t⟩

/-- Source lines 348-360 of `MathFeatures.transform` replayed over the
store, with the caller's frame at reference `x0`.  The base collaborator
`_check_transform_input_and_state` is not part of this file's source;
following the spec it only validates, and it is modelled here in the
worst case for mutation, handing back the caller's object itself.
`np_transform` builds `np_result_df` as a fresh frame, `pd.concat` allocates
a fresh result frame, and the `drop(..., inplace=True)` under
`drop_original` mutates that concatenated frame in place — never the frame
at `x0`. -/
def mfTransformStore (sqrtFn : ℚ → ℚ) (inst : FittedMF) (s : Store) (x0 : Nat) :
    Store × Nat :=
  let names := getNewFeaturesName inst
  let p1 := allocFrame s (npTransform sqrtFn (getFrame s x0) names inst.variables_ inst.func)
  let p2 := allocFrame p1.1 (getFrame p1.1 x0 ++ getFrame p1.1 p1.2)
  let s3 :=
    if inst.drop_original then
      setFrame p2.1 p2.2 ((getFrame p2.1 p2.2).filter (fun p => !(inst.variables_.contains p.1)))
    else p2.1
  (s3, p2.2)

theorem sum_map_getD_eq (f : ℚ → ℚ) :
    ∀ row : List Cell,
      (row.map (fun x => (x.map f).getD 0)).sum = ((presentValues row).map f).sum := by
  intro row
  induction row with
  | nil => rfl
  | cons x xs ih =>
    cases x <;> simp [presentValues, List.filterMap_cons] at ih ⊢ <;> simp [ih]

theorem sum_getD_eq (row : List Cell) :
    (row.map (fun x => x.getD 0)).sum = (presentValues row).sum := by
  have h := sum_map_getD_eq id row
  simpa using h

theorem prod_getD_eq (row : List Cell) :
    (row.map (fun x => x.getD 1)).prod = (presentValues row).prod := by
  induction row with
  | nil => rfl
  | cons x xs ih =>
    cases x <;> simp [presentValues, List.filterMap_cons] at ih ⊢ <;> simp [ih]

theorem nanCount_eq_length_presentValues (row : List Cell) :
    nanCount row = (presentValues row).length := by
  induction row with
  | nil => rfl
  | cons x xs ih =>
    cases x <;> simp [nanCount, presentValues, List.filterMap_cons, List.countP_cons] at ih ⊢ <;>
      simp [ih]

theorem countP_isSome_add_countP_isNone (row : List Cell) :
    row.countP (fun x => x.isSome) + row.countP (fun x => x.isNone) = row.length := by
  induction row with
  | nil => rfl
  | cons x xs ih => cases x <;> simp [List.countP_cons] <;> omega

/-- Claim C2: under the "ignore" missing-value policy, a row in which k of
the N input values are missing with 0 < k < N reduces each of sum, mean,
min, max, prod and median over the N−k present values; a row with all N
values missing gives NaN for mean, min, max and median; and the concrete
scenario x1=[1,NA,3], x2=[4,5,6] with func="mean" produces the column
mean_x1_x2 = [2.5, 5.0, 4.5]. -/
theorem c2_ignore_reduces_over_present :
    (∀ row : List Cell,
        0 < row.countP (fun x => x.isNone) →
        row.countP (fun x => x.isNone) < row.length →
        nansum row = some (presentValues row).sum ∧
        nanmean row = some ((presentValues row).sum / ((presentValues row).length : ℚ)) ∧
        nanmin row = (presentValues row).min? ∧
        nanmax row = (presentValues row).max? ∧
        nanprod row = some (presentValues row).prod ∧
        nanmedian row = listMedian (presentValues row)) ∧
    (∀ row : List Cell, presentValues row = [] →
        nanmean row = none ∧ nanmin row = none ∧ nanmax row = none ∧ nanmedian row = none) ∧
    mfTransform id ⟨["x1", "x2"], [.builtin .bmean false], none, false⟩
        [("x1", [some 1, none, some 3]), ("x2", [some 4, some 5, some 6])] =
      [("x1", [some 1, none, some 3]), ("x2", [some 4, some 5, some 6]),
        ("mean_x1_x2", [some (5/2), some 5, some (9/2)])] := by
  refine ⟨?_, ?_, ?_⟩
  · intro row _hk hlt
    have hcnt : nanCount row = (presentValues row).length := nanCount_eq_length_presentValues row
    have hpos : 0 < nanCount row := by
      have hadd := countP_isSome_add_countP_isNone row
      unfold nanCount
      omega
    refine ⟨?_, ?_, ?_, ?_, ?_, rfl⟩
    · simp [nansum, sum_getD_eq]
    · unfold nanmean
      rw [if_neg (by omega)]
      rw [sum_getD_eq, hcnt]
    · cases hpv : presentValues row <;> simp [nanmin, hpv, List.min?]
    · cases hpv : presentValues row <;> simp [nanmax, hpv, List.max?]
    · simp [nanprod, prod_getD_eq]
  · intro row hpv
    have hcnt : nanCount row = 0 := by
      rw [nanCount_eq_length_presentValues, hpv]
      rfl
    refine ⟨by simp [nanmean, hcnt], by simp [nanmin, hpv], by simp [nanmax, hpv], ?_⟩
    simp [nanmedian, hpv, listMedian, List.insertionSort]
  · simp [mfTransform, getNewFeaturesName, npTransform, npTransformAux, dfAssign,
      computeColumn, selectRows, selectRow, colValues, nRows, applySpec, applyBuiltin,
      nanmean, nanCount, presentValues, specIdentity, bName, List.range, List.range.loop,
      String.intercalate, String.intercalate.go, List.countP, List.countP.go]
    norm_num

/-- Witness for claim C2 at concrete rows: x1-row [1, NA, 3] has one of
three values missing and its reductions run over the present values; the
all-missing row [NA, NA] gives NaN for mean, min, max and median. -/
theorem c2_ignore_reduces_over_present_witness :
    (0 < List.countP (fun x => x.isNone) [(some 1 : Cell), none, some 3] ∧
      List.countP (fun x => x.isNone) [(some 1 : Cell), none, some 3] <
        [(some 1 : Cell), none, some 3].length ∧
      nanmean [(some 1 : Cell), none, some 3] =
        some ((presentValues [(some 1 : Cell), none, some 3]).sum /
          ((presentValues [(some 1 : Cell), none, some 3]).length : ℚ))) ∧
    (presentValues ([none, none] : List Cell) = [] ∧
      nanmean ([none, none] : List Cell) = none) :=
  ⟨⟨by decide, by decide,
      ((c2_ignore_reduces_over_present.1 [(some 1 : Cell), none, some 3]
        (by decide) (by decide)).2.1)⟩,
    rfl, ((c2_ignore_reduces_over_present.2.1 ([none, none] : List Cell) rfl).1)⟩

/-- Claim C3: the built-in reductions std and var use a degrees-of-freedom
correction of 1 — the divisor is (count of non-missing values − 1) — and a
row with fewer than 2 non-missing values yields NaN for both, even under
the "ignore" policy. -/
theorem c3_sample_ddof_one :
    ∀ row : List Cell,
      ((presentValues row).length < 2 → nanvar 1 row = none ∧ nanstd row = none) ∧
      (2 ≤ (presentValues row).length →
        nanvar 1 row = some (sampleVarFormula (presentValues row)) ∧
        nanstd row = some (Real.sqrt (sampleVarFormula (presentValues row)))) := by
  intro row
  have hcnt : nanCount row = (presentValues row).length := nanCount_eq_length_presentValues row
  constructor
  · intro hlt
    have h1 : nanCount row ≤ 1 := by omega
    have hv : nanvar 1 row = none := by simp [nanvar, h1]
    exact ⟨hv, by simp [nanstd, hv]⟩
  · intro hge
    have h1 : ¬ (nanCount row ≤ 1) := by omega
    have hv : nanvar 1 row = some (sampleVarFormula (presentValues row)) := by
      simp only [nanvar, h1, if_false]
      rw [sum_map_getD_eq (fun v =>
        (v - (row.map (fun x => x.getD 0)).sum / (nanCount row : ℚ)) ^ 2) row]
      rw [sum_getD_eq, hcnt]
      unfold sampleVarFormula
      congr 1
      rw [Nat.cast_sub (by omega), Nat.cast_one]
    exact ⟨hv, by simp [nanstd, hv]⟩

/-- Witness for claim C3 at concrete rows: [1, NA] has a single present
value and var/std are NaN; [1, 3] has two present values and var equals the
sample formula with divisor 1. -/
theorem c3_sample_ddof_one_witness :
    ((presentValues [(some 1 : Cell), none]).length < 2 ∧
      nanvar 1 [(some 1 : Cell), none] = none ∧ nanstd [(some 1 : Cell), none] = none) ∧
    (2 ≤ (presentValues [(some 1 : Cell), some 3]).length ∧
      nanvar 1 [(some 1 : Cell), some 3] =
        some (sampleVarFormula (presentValues [(some 1 : Cell), some 3]))) :=
  ⟨⟨by decide, (c3_sample_ddof_one [(some 1 : Cell), none]).1 (by decide)⟩,
    by decide, ((c3_sample_ddof_one [(some 1 : Cell), some 3]).2 (by decide)).1⟩

/-- Claim C10: under the "ignore" policy an all-missing row sums to 0 and
has product 1 — the nansum/nanprod convention, not NaN propagation — also
visible end-to-end in the produced sum and prod columns. -/
theorem c10_all_missing_sum_prod :
    (∀ row : List Cell, presentValues row = [] →
      nansum row = some 0 ∧ nanprod row = some 1) ∧
    mfTransform id ⟨["x1", "x2"], [.builtin .bsum false, .builtin .bprod false], none, false⟩
        [("x1", [none]), ("x2", [none])] =
      [("x1", [none]), ("x2", [none]),
        ("sum_x1_x2", [some 0]), ("prod_x1_x2", [some 1])] := by
  constructor
  · intro row hpv
    exact ⟨by simp [nansum, sum_getD_eq, hpv], by simp [nanprod, prod_getD_eq, hpv]⟩
  · simp [mfTransform, getNewFeaturesName, npTransform, npTransformAux, dfAssign,
      computeColumn, selectRows, selectRow, colValues, nRows, applySpec, applyBuiltin,
      nansum, nanprod, specIdentity, bName, List.range, List.range.loop,
      String.intercalate, String.intercalate.go]

/-- Witness for claim C10 at the concrete all-missing row [NA, NA]. -/
theorem c10_all_missing_sum_prod_witness :
    presentValues ([none, none] : List Cell) = [] ∧
      nansum ([none, none] : List Cell) = some 0 ∧
      nanprod ([none, none] : List Cell) = some 1 :=
  ⟨rfl, c10_all_missing_sum_prod.1 ([none, none] : List Cell) rfl⟩

/-- Claim C9: construction rejects `variables` with the variables error
unless it is a list of strings or integers of length at least 2 with no
duplicates, whatever the other arguments are; a valid list never triggers
that error. -/
theorem c9_variables_validation :
    ∀ v f nv : PyVal,
      (validVariables v = false → mathFeaturesInit v f nv = .error varsErrorText) ∧
      (validVariables v = true → mathFeaturesInit v f nv ≠ .error varsErrorText) := by
  intro v f nv
  constructor
  · intro h
    simp [mathFeaturesInit, h]
  · intro h
    simp only [mathFeaturesInit, h]
    rw [if_neg (by simp)]
    split
    · simp [Except.error.injEq, dictErrorText, varsErrorText]
    · split
      · simp [Except.error.injEq, namesErrorText, varsErrorText]
      · split
        · simp [Except.error.injEq, countErrorText, varsErrorText]
        · simp

/-- Witness for claim C9 at the concrete scenario variables=["x1"]
(length 1): construction fails with the variables error. -/
theorem c9_variables_validation_witness :
    validVariables (PyVal.plist [.astr "x1"]) = false ∧
      mathFeaturesInit (.plist [.astr "x1"]) (.atom (.astr "sum")) (.atom .anone) =
        .error varsErrorText :=
  ⟨by decide,
    (c9_variables_validation (.plist [.astr "x1"]) (.atom (.astr "sum")) (.atom .anone)).1
      (by decide)⟩

/-- Claim C4, evaluated on the code: a single string func is wrapped into a
one-element list as claimed, but a single callable func is stored
unwrapped — the casting else-branch assigns the callable itself, not a
one-element sequence, contradicting the class docstring's accepted
combination "function". -/
theorem c4_single_callable_not_wrapped :
    mathFeaturesInit (.plist [.astr "x1", .astr "x2"]) (.atom (.astr "sum")) (.atom .anone) =
      .ok ⟨.plist [.astr "x1", .astr "x2"], .plist [.astr "sum"], .atom .anone⟩ ∧
    mathFeaturesInit (.plist [.astr "x1", .astr "x2"]) (.atom (.acallable "f")) (.atom .anone) =
      .ok ⟨.plist [.astr "x1", .astr "x2"], .atom (.acallable "f"), .atom .anone⟩ ∧
    PyVal.atom (.acallable "f") ≠ .plist [.acallable "f"] :=
  ⟨rfl, rfl, by decide⟩

/-- Counterexample for claim C5: with func a single callable the stored
specification is not a list, the count check is skipped, and a two-name
list is accepted although there is a single specification — construction
succeeds where the claim requires rejection. -/
theorem c5_count_check_skipped_counterexample :
    isOkE (mathFeaturesInit (.plist [.astr "x1", .astr "x2"]) (.atom (.acallable "f"))
      (.plist [.astr "a", .astr "b"])) = true := rfl

/-- Claim C5 as amended: when `new_variables_names` is provided,
construction fails unless it is a list of unique strings; and when the
stored func is additionally a list — func given as a string or a list —
construction fails unless the name count equals the specification count.
The count check is skipped when func is stored unwrapped (single callable). -/
theorem c5_names_validation_amended :
    ∀ v f nv : PyVal,
      (nv ≠ PyVal.atom .anone → uniqueStrNames nv = false →
        isOkE (mathFeaturesInit v f nv) = false) ∧
      (∀ xs : List PyAtom, nv ≠ PyVal.atom .anone → castFunc f = .plist xs →
        pLen nv ≠ xs.length → isOkE (mathFeaturesInit v f nv) = false) := by
  intro v f nv
  have hige : ∀ e : String, isOkE (Except.error e : Except String MFState) = false := fun _ => rfl
  have higo : ∀ s : MFState, isOkE (Except.ok s : Except String MFState) = true := fun _ => rfl
  constructor
  · intro hnv hu
    simp [mathFeaturesInit, apply_ite isOkE, hige, higo, hnv, hu]
  · intro xs hnv hcf hlen
    have hip : isPlist (PyVal.plist xs) = true := rfl
    have hpl : pLen (PyVal.plist xs) = xs.length := rfl
    simp [mathFeaturesInit, apply_ite isOkE, hige, higo, hnv, hcf, hlen, hip, hpl]

/-- Witness for the amended claim C5 at concrete inputs: a non-string name
list is rejected, and a two-name list against a single string function is
rejected. -/
theorem c5_names_validation_amended_witness :
    isOkE (mathFeaturesInit (.plist [.astr "x1", .astr "x2"]) (.atom (.astr "sum"))
        (.plist [.adict])) = false ∧
    isOkE (mathFeaturesInit (.plist [.astr "x1", .astr "x2"]) (.atom (.astr "sum"))
        (.plist [.astr "a", .astr "b"])) = false :=
  ⟨(c5_names_validation_amended (.plist [.astr "x1", .astr "x2"]) (.atom (.astr "sum"))
      (.plist [.adict])).1 (by decide) (by decide),
    (c5_names_validation_amended (.plist [.astr "x1", .astr "x2"]) (.atom (.astr "sum"))
      (.plist [.astr "a", .astr "b"])).2 [.astr "sum"] (by decide) rfl (by decide)⟩

/-- Claim C6: with explicit names supplied at construction they are
returned verbatim in order; without them, the derived output name of the
j-th specification is its function identity — the literal string of a
named/aliased built-in, the declared name of a callable — followed by the
input column names joined with underscores in their original list order. -/
theorem c6_output_name_derivation :
    (∀ (vars : List String) (funcs : List Spec) (drop : Bool) (ns : List String),
      getNewFeaturesName ⟨vars, funcs, some ns, drop⟩ = ns) ∧
    (∀ (vars : List String) (funcs : List Spec) (drop : Bool),
      (getNewFeaturesName ⟨vars, funcs, none, drop⟩).length = funcs.length ∧
      ∀ j, j < funcs.length →
        (getNewFeaturesName ⟨vars, funcs, none, drop⟩).getD j "" =
          specIdentity (funcs.getD j default) ++ "_" ++ String.intercalate "_" vars) := by
  refine ⟨fun _ _ _ _ => rfl, fun vars funcs drop => ⟨by simp [getNewFeaturesName], ?_⟩⟩
  intro j hj
  have hj2 : j < (getNewFeaturesName ⟨vars, funcs, none, drop⟩).length := by
    simpa [getNewFeaturesName] using hj
  rw [List.getD_eq_getElem _ _ hj2, List.getD_eq_getElem _ _ hj]
  simp [getNewFeaturesName]

/-- Witness for claim C6 at a concrete fitted instance: explicit names come
back verbatim, and the derived name of an aliased built-in and of a
callable follow the identity-and-columns pattern. -/
theorem c6_output_name_derivation_witness :
    getNewFeaturesName ⟨["x1", "x2"], [.builtin .bsum false], some ["total"], false⟩
        = ["total"] ∧
    ((0 : Nat) < ([Spec.builtin .bsum true, .callable "agg1" .pandasScope nansum].length) ∧
      (getNewFeaturesName ⟨["x1", "x2"],
          [.builtin .bsum true, .callable "agg1" .pandasScope nansum], none, false⟩).getD 0 ""
        = specIdentity ([Spec.builtin .bsum true,
            .callable "agg1" .pandasScope nansum].getD 0 default) ++ "_" ++
          String.intercalate "_" ["x1", "x2"]) :=
  ⟨c6_output_name_derivation.1 ["x1", "x2"] [.builtin .bsum false] false ["total"],
    by norm_num,
    (c6_output_name_derivation.2 ["x1", "x2"]
        [.builtin .bsum true, .callable "agg1" .pandasScope nansum] false).2 0 (by norm_num)⟩

theorem dfAssign_of_fresh (df : Table) (nm : String) (col : List Cell)
    (h : ∀ p ∈ df, p.1 ≠ nm) : dfAssign df nm col = df ++ [(nm, col)] := by
  have ha : df.any (fun p => p.1 == nm) = false := by
    rw [List.any_eq_false]
    intro p hp
    simpa using h p hp
  simp [dfAssign, ha]

theorem npTransformAux_of_nodup (sqrtFn : ℚ → ℚ) (X : Table) (vars : List String) :
    ∀ (pairs : List (String × Spec)) (acc : Table),
      (pairs.map Prod.fst).Nodup →
      (∀ p ∈ acc, ∀ q ∈ pairs, p.1 ≠ q.1) →
      npTransformAux sqrtFn X vars acc pairs =
        acc ++ pairs.map (fun q => (q.1, computeColumn sqrtFn X vars q.2)) := by
  intro pairs
  induction pairs with
  | nil =>
    intro acc _ _
    simp [npTransformAux]
  | cons q rest ih =>
    intro acc hnd hdisj
    obtain ⟨nm, sp⟩ := q
    have hfresh : ∀ p ∈ acc, p.1 ≠ nm := fun p hp => hdisj p hp (nm, sp) (List.mem_cons_self _ _)
    have hnd2 : (nm :: rest.map Prod.fst).Nodup := by simpa using hnd
    have hnm : nm ∉ rest.map Prod.fst := (List.nodup_cons.mp hnd2).1
    have hnd3 : (rest.map Prod.fst).Nodup := (List.nodup_cons.mp hnd2).2
    have hdisj2 : ∀ p ∈ acc ++ [(nm, computeColumn sqrtFn X vars sp)], ∀ q2 ∈ rest, p.1 ≠ q2.1 := by
      intro p hp q2 hq2
      rcases List.mem_append.mp hp with hmem | hmem
      · exact hdisj p hmem q2 (List.mem_cons_of_mem _ hq2)
      · have hp1 : p.1 = nm := by
          have hpe : p = (nm, computeColumn sqrtFn X vars sp) := by simpa using hmem
          rw [hpe]
        rw [hp1]
        intro heq
        exact hnm (heq ▸ List.mem_map_of_mem Prod.fst hq2)
    have hstep : npTransformAux sqrtFn X vars acc ((nm, sp) :: rest) =
        npTransformAux sqrtFn X vars (dfAssign acc nm (computeColumn sqrtFn X vars sp)) rest := rfl
    rw [hstep, dfAssign_of_fresh acc nm _ hfresh, ih _ hnd3 hdisj2]
    simp

/-- Counterexample for claim C1: two identical specifications (func =
["sum", "sum"], no explicit names) derive the same output name, the second
assignment into np_result_df overwrites the first, and the transformed
table has one new column for two specifications — three columns in total
instead of the four that "one new output column per entry" demands. -/
theorem c1_one_column_per_spec_counterexample :
    (mfTransform id ⟨["x1", "x2"], [.builtin .bsum false, .builtin .bsum false], none, false⟩
        [("x1", [some 1]), ("x2", [some 4])]).map Prod.fst = ["x1", "x2", "sum_x1_x2"] ∧
    ¬ (mfTransform id ⟨["x1", "x2"], [.builtin .bsum false, .builtin .bsum false], none, false⟩
        [("x1", [some 1]), ("x2", [some 4])]).length = 2 + 2 := by
  have hres : mfTransform id
      ⟨["x1", "x2"], [.builtin .bsum false, .builtin .bsum false], none, false⟩
      [("x1", [some 1]), ("x2", [some 4])] =
      [("x1", [some 1]), ("x2", [some 4]), ("sum_x1_x2", [some 5])] := by
    simp [mfTransform, getNewFeaturesName, npTransform, npTransformAux, dfAssign,
      computeColumn, selectRows, selectRow, colValues, nRows, applySpec, applyBuiltin,
      nansum, specIdentity, bName, List.range, List.range.loop, String.intercalate,
      String.intercalate.go]
    norm_num
  rw [hres]
  exact ⟨rfl, by simp⟩

/-- Claim C1 as amended: provided the per-specification output names are
pairwise distinct and, when drop_original is set, no output name equals a
dropped input column, the transformed table is exactly the pre-existing
columns (minus the dropped ones when drop_original is set) followed by one
new column per specification in specification order; its column count is
the kept-column count plus the specification count, and every column —
old or new — still has one value per input row, computed from that row. -/
theorem c1_transform_shape_amended :
    ∀ (sqrtFn : ℚ → ℚ) (inst : FittedMF) (X : Table),
      (∀ c ∈ X, c.2.length = nRows X) →
      (getNewFeaturesName inst).length = inst.func.length →
      (getNewFeaturesName inst).Nodup →
      (inst.drop_original = true → ∀ nm ∈ getNewFeaturesName inst, nm ∉ inst.variables_) →
      mfTransform sqrtFn inst X =
        (if inst.drop_original then X.filter (fun p => !(inst.variables_.contains p.1)) else X)
          ++ ((getNewFeaturesName inst).zip inst.func).map
              (fun q => (q.1, computeColumn sqrtFn X inst.variables_ q.2)) ∧
      (mfTransform sqrtFn inst X).length =
        (if inst.drop_original then X.filter (fun p => !(inst.variables_.contains p.1))
          else X).length + inst.func.length ∧
      ∀ c ∈ mfTransform sqrtFn inst X, c.2.length = nRows X := by
  intro sqrtFn inst X hn hlen hnd hkeep
  have hpairs : (((getNewFeaturesName inst).zip inst.func).map Prod.fst).Nodup := by
    rw [List.map_fst_zip _ _ (le_of_eq hlen)]
    exact hnd
  have hnp : npTransform sqrtFn X (getNewFeaturesName inst) inst.variables_ inst.func =
      ((getNewFeaturesName inst).zip inst.func).map
        (fun q => (q.1, computeColumn sqrtFn X inst.variables_ q.2)) := by
    unfold npTransform
    rw [npTransformAux_of_nodup sqrtFn X inst.variables_ _ [] hpairs (by simp)]
    simp
  have hmain : mfTransform sqrtFn inst X =
      (if inst.drop_original then X.filter (fun p => !(inst.variables_.contains p.1)) else X)
        ++ ((getNewFeaturesName inst).zip inst.func).map
            (fun q => (q.1, computeColumn sqrtFn X inst.variables_ q.2)) := by
    simp only [mfTransform]
    rw [hnp]
    cases hdrop : inst.drop_original
    · simp
    · simp only [if_true]
      rw [List.filter_append]
      congr 1
      rw [List.filter_eq_self]
      intro p hp
      obtain ⟨q, hq, hpe⟩ := List.mem_map.mp hp
      have hq1 : q.1 ∈ getNewFeaturesName inst := by
        obtain ⟨a, b⟩ := q
        exact (List.of_mem_zip hq).1
      have hnot : q.1 ∉ inst.variables_ := hkeep hdrop q.1 hq1
      rw [← hpe]
      simpa using hnot
  refine ⟨hmain, ?_, ?_⟩
  · rw [hmain]
    simp [List.length_zip, hlen]
  · intro c hc
    rw [hmain] at hc
    rcases List.mem_append.mp hc with hmem | hmem
    · have hcx : c ∈ X := by
        split at hmem
        · exact (List.mem_filter.mp hmem).1
        · exact hmem
      exact hn c hcx
    · obtain ⟨q, _, hpe⟩ := List.mem_map.mp hmem
      rw [← hpe]
      simp [computeColumn, selectRows]

/-- Witness for the amended claim C1 at a concrete fitted instance: a
single sum specification on a two-column, one-row table yields exactly
three columns. -/
theorem c1_transform_shape_amended_witness :
    (∀ c ∈ ([("x1", [some 1]), ("x2", [some 4])] : Table),
        c.2.length = nRows [("x1", [some 1]), ("x2", [some 4])]) ∧
    (mfTransform id ⟨["x1", "x2"], [.builtin .bsum false], none, false⟩
        [("x1", [some 1]), ("x2", [some 4])]).length = 3 := by
  constructor
  · decide
  · have h := (c1_transform_shape_amended id
      ⟨["x1", "x2"], [.builtin .bsum false], none, false⟩
      [("x1", [some 1]), ("x2", [some 4])] (by decide) (by decide) (by decide) (by decide)).2.1
    simpa using h

/-- Claim C7: with drop_original disabled every input column stays in its
original position and order at the front of the result; with drop_original
enabled, among the input table's column labels exactly those in the
variables list disappear from the result, and no other input column is
removed. -/
theorem c7_drop_exactly_input_columns :
    ∀ (sqrtFn : ℚ → ℚ) (inst : FittedMF) (X : Table),
      (inst.drop_original = false → (mfTransform sqrtFn inst X).take X.length = X) ∧
      (inst.drop_original = true → ∀ nm ∈ X.map Prod.fst,
        (nm ∈ (mfTransform sqrtFn inst X).map Prod.fst ↔ nm ∉ inst.variables_)) := by
  intro sqrtFn inst X
  constructor
  · intro hdrop
    simp only [mfTransform, hdrop, Bool.false_eq_true, if_false]
    exact List.take_left X _
  · intro hdrop nm hnm
    simp only [mfTransform, hdrop, if_true]
    constructor
    · intro hmem
      obtain ⟨p, hpf, hpe⟩ := List.mem_map.mp hmem
      have hpred := (List.mem_filter.mp hpf).2
      rw [hpe] at hpred
      intro hin
      simp [hin] at hpred
    · intro hnin
      obtain ⟨p, hpX, hpe⟩ := List.mem_map.mp hnm
      refine List.mem_map.mpr ⟨p, List.mem_filter.mpr ⟨List.mem_append_left _ hpX, ?_⟩, hpe⟩
      rw [hpe]
      simpa using hnin

/-- Witness for claim C7 at concrete fitted instances: without the drop the
two input columns head the result unchanged; with the drop the input label
x1 is gone from the result. -/
theorem c7_drop_exactly_input_columns_witness :
    ((mfTransform id ⟨["x1", "x2"], [.builtin .bsum false], none, false⟩
        [("x1", [some 1]), ("x2", [some 4])]).take 2 =
      [("x1", [some 1]), ("x2", [some 4])]) ∧
    "x1" ∉ (mfTransform id ⟨["x1", "x2"], [.builtin .bsum false], none, true⟩
        [("x1", [some 1]), ("x2", [some 4])]).map Prod.fst := by
  constructor
  · exact (c7_drop_exactly_input_columns id
      ⟨["x1", "x2"], [.builtin .bsum false], none, false⟩
      [("x1", [some 1]), ("x2", [some 4])]).1 rfl
  · intro hmem
    have h := ((c7_drop_exactly_input_columns id
      ⟨["x1", "x2"], [.builtin .bsum false], none, true⟩
      [("x1", [some 1]), ("x2", [some 4])]).2 rfl "x1" (by decide)).mp hmem
    exact h (by decide)

theorem getD_append2 {α : Type} (A B C : List α) (r : Nat) (d : α) (h : r < A.length) :
    ((A ++ B) ++ C).getD r d = A.getD r d := by
  rw [List.append_assoc]
  simp [List.getD_eq_getElem?_getD, List.getElem?_append_left h]

theorem getD_set_append2 {α : Type} (A B C : List α) (t : α) (r : Nat) (d : α)
    (h : r < A.length) :
    (((A ++ B) ++ C).set ((A ++ B).length) t).getD r d = A.getD r d := by
  rw [List.getD_eq_getElem?_getD, List.getElem?_set_ne (by simp; omega)]
  rw [← List.getD_eq_getElem?_getD, getD_append2 A B C r d h]

/-- Claim C8: a transform call leaves the caller's frame unchanged — the
new-column frame and the concatenated result are fresh allocations, and the
in-place drop under drop_original mutates only the concatenated frame, so
the frame the caller passed in holds the same columns and values after the
call. -/
theorem c8_transform_leaves_input_frame :
    ∀ (sqrtFn : ℚ → ℚ) (inst : FittedMF) (s : Store) (x0 : Nat),
      x0 < s.frames.length →
      getFrame (mfTransformStore sqrtFn inst s x0).1 x0 = getFrame s x0 := by
  intro sqrtFn inst s x0 h
  cases hdrop : inst.drop_original
  · simp only [mfTransformStore, allocFrame, setFrame, getFrame, hdrop, Bool.false_eq_true,
      if_false]
    exact getD_append2 _ _ _ _ _ h
  · simp only [mfTransformStore, allocFrame, setFrame, getFrame, hdrop, if_true]
    exact getD_set_append2 _ _ _ _ _ _ h

/-- Witness for claim C8 at a concrete store holding one caller frame, with
drop_original enabled so the in-place drop path runs: the caller's frame is
unchanged after the call. -/
theorem c8_transform_leaves_input_frame_witness :
    (0 : Nat) < (Store.mk [[("x1", [some 1]), ("x2", [some 4])]]).frames.length ∧
    getFrame (mfTransformStore id ⟨["x1", "x2"], [.builtin .bsum false], none, true⟩
        (Store.mk [[("x1", [some 1]), ("x2", [some 4])]]) 0).1 0 =
      getFrame (Store.mk [[("x1", [some 1]), ("x2", [some 4])]]) 0 :=
  ⟨by decide,
    c8_transform_leaves_input_frame id ⟨["x1", "x2"], [.builtin .bsum false], none, true⟩
      (Store.mk [[("x1", [some 1]), ("x2", [some 4])]]) 0 (by decide)⟩
